import Mathlib

/-!
Verification development for the `mallennlp` dashboard core: the structural
serialization engine, the page base contract (`to_store` / `from_store` /
`render` / `from_params`), the callback dispatch pipeline
(`ensure_permissions`, `Page.callback`), the `LogStream` page, and
`UserService.validate_password`.

Python source embedded from `mallennlp/dashboard/page.py`,
`mallennlp/dashboard/log_stream.py`, `mallennlp/services/user.py` and
`mallennlp/tests/services/serialization_test.py`.  Components of the
repository that are referenced but whose code is not available
(the serialization engine `mallennlp/services/serialization.py`, the
exceptions module, the callback dispatcher, `LogStreamService`,
`format_log_line`) are modelled from the specification, as marked on each
definition.
-/

namespace Mallennlp

/-! ## Plain data

Modelled from the spec: "Plain Data — one of: null, boolean, number, string,
ordered sequence of Plain Data, or a string-keyed mapping to Plain Data."
Mutual inductives are used instead of nested `List` so that structural
recursion and induction stay elementary. -/

mutual

inductive PlainData where
  | null : PlainData
  | pBool (b : Bool) : PlainData
  | pNum (n : Int) : PlainData
  | pStr (s : String) : PlainData
  | pSeq (xs : PlainList) : PlainData
  | pMap (m : PlainMap) : PlainData

inductive PlainList where
  | nil : PlainList
  | cons (d : PlainData) (ds : PlainList) : PlainList

inductive PlainMap where
  | nil : PlainMap
  | cons (k : String) (d : PlainData) (m : PlainMap) : PlainMap

end

/-! ## Serializable values and schemas

Modelled from the spec: "A serializable type has an ordered set of named
fields; each field has a declared type which is itself a scalar, another
serializable type, or a parametrized container of one of these."  A `Value`
is an instance of a serializable type; a record holds its fields under their
declared (possibly privacy-marked) names.  A `Schema` is the static
field-to-type mapping of a serializable type. -/

mutual

inductive Value where
  | vInt (n : Int) : Value
  | vStr (s : String) : Value
  | vBool (b : Bool) : Value
  | vList (xs : ValueList) : Value
  | vRecord (fs : FieldList) : Value

inductive ValueList where
  | nil : ValueList
  | cons (v : Value) (vs : ValueList) : ValueList

inductive FieldList where
  | nil : FieldList
  | cons (k : String) (v : Value) (fs : FieldList) : FieldList

end

mutual

inductive Schema where
  | sInt : Schema
  | sStr : Schema
  | sBool : Schema
  | sList (elem : Schema) : Schema
  | sRecord (fs : SchemaFields) : Schema

inductive SchemaFields where
  | nil : SchemaFields
  | cons (k : String) (s : Schema) (fs : SchemaFields) : SchemaFields

end

/-- Modelled from the spec: "Fields whose declared name begins with a privacy
marker (e.g., a leading underscore) are stored and restored under that same
marker but are supplied to the type's constructor using the unmarked name."
`stripMarker` turns the stored (declared) field name into the
constructor-parameter name.  (`Char.ofNat 95` is the underscore marker.) -/
def stripMarker (k : String) : String :=
  match k.data with
  | c :: rest => if c = Char.ofNat 95 then String.mk rest else k
  | [] => k

/-- Association lookup in a plain-data mapping. -/
def lookupMap (k : String) : PlainMap → Option PlainData
  | .nil => none
  | .cons k' d m => if k = k' then some d else lookupMap k m

/-- Association lookup in a field list (by the key under which it is held). -/
def lookupField (k : String) : FieldList → Option Value
  | .nil => none
  | .cons k' v fs => if k = k' then some v else lookupField k fs

/-- Holds when no field of the list has stripped name `s`. -/
def keyFreshStripped (s : String) : FieldList → Bool
  | .nil => true
  | .cons k _ fs => (stripMarker k != s) && keyFreshStripped s fs

/-- Holds when the stripped (constructor-parameter) names of the fields are
pairwise distinct.  Every valid instance of a serializable type satisfies
this, since constructor parameter names are distinct. -/
def strippedNodup : FieldList → Bool
  | .nil => true
  | .cons k _ fs => keyFreshStripped (stripMarker k) fs && strippedNodup fs

/-- Re-key a field list by the stripped names: the argument list handed to
the type's constructor. -/
def stripKeys : FieldList → FieldList
  | .nil => .nil
  | .cons k v fs => .cons (stripMarker k) v (stripKeys fs)

/-! ### serialize

Modelled from the spec: "A serializable type serializes to a mapping from
each field's declared name (marker preserved) to the serialized value of
that field"; "a homogeneous ordered container of type T serializes to an
ordered sequence of serialized T"; scalars serialize to themselves. -/

mutual

def serialize : Value → PlainData
  | .vInt n => .pNum n
  | .vStr s => .pStr s
  | .vBool b => .pBool b
  | .vList xs => .pSeq (serializeList xs)
  | .vRecord fs => .pMap (serializeFields fs)

def serializeList : ValueList → PlainList
  | .nil => .nil
  | .cons v vs => .cons (serialize v) (serializeList vs)

def serializeFields : FieldList → PlainMap
  | .nil => .nil
  | .cons k v fs => .cons k (serialize v) (serializeFields fs)

end

/-- Modelled from the spec design notes: "the engine looks up the stored key,
and the constructor binds by the translated key."  `construct` invokes the
type's constructor: it binds each declared field from the argument list by
the unmarked (stripped) name and re-stores it under the declared name. -/
def construct : SchemaFields → FieldList → Option FieldList
  | .nil, _ => some .nil
  | .cons k _ fs, args =>
    match lookupField (stripMarker k) args with
    | none => none
    | some v =>
      match construct fs args with
      | none => none
      | some rest => some (.cons k v rest)

/-! ### deserialize

Modelled from the spec: "it deserializes by recursively deserializing each
entry against the field's declared type and invoking the type's constructor
with unmarked field names"; "deserialization fails ... when a plain-data
mapping is missing a required field or has a value incompatible with the
declared type".  Failure is modelled as `none` (`SchemaMismatchError`). -/

mutual

def deserialize : Schema → PlainData → Option Value
  | .sInt, .pNum n => some (.vInt n)
  | .sStr, .pStr s => some (.vStr s)
  | .sBool, .pBool b => some (.vBool b)
  | .sList s, .pSeq xs =>
    match deserializeList s xs with
    | none => none
    | some vs => some (.vList vs)
  | .sRecord fs, .pMap entries =>
    match deserializeArgs entries fs with
    | none => none
    | some args =>
      match construct fs args with
      | none => none
      | some vfs => some (.vRecord vfs)
  | _, _ => none

def deserializeList : Schema → PlainList → Option ValueList
  | _, .nil => some .nil
  | s, .cons d ds =>
    match deserialize s d with
    | none => none
    | some v =>
      match deserializeList s ds with
      | none => none
      | some vs => some (.cons v vs)

def deserializeArgs (entries : PlainMap) : SchemaFields → Option FieldList
  | .nil => some .nil
  | .cons k s fs =>
    match lookupMap k entries with
    | none => none
    | some d =>
      match deserialize s d with
      | none => none
      | some v =>
        match deserializeArgs entries fs with
        | none => none
        | some args => some (.cons (stripMarker k) v args)

end

/-! ### conformance

A `Value` is a valid instance of a `Schema` when the shapes agree: field
names (markers included) match the declaration in order, every field value
conforms to its declared type, and the constructor-parameter names of a
record are pairwise distinct. -/

mutual

def conforms : Schema → Value → Bool
  | .sInt, .vInt _ => true
  | .sStr, .vStr _ => true
  | .sBool, .vBool _ => true
  | .sList s, .vList xs => conformsList s xs
  | .sRecord fs, .vRecord vfs => conformsFields fs vfs && strippedNodup vfs
  | _, _ => false

def conformsList : Schema → ValueList → Bool
  | _, .nil => true
  | s, .cons v vs => conforms s v && conformsList s vs

def conformsFields : SchemaFields → FieldList → Bool
  | .nil, .nil => true
  | .cons _ _ _, .nil => false
  | .nil, .cons _ _ _ => false
  | .cons k s fs, .cons k' v vfs => (k == k') && conforms s v && conformsFields fs vfs

end

/-! ## The test types `Inner` and `Outer`

Embedded from `mallennlp/tests/services/serialization_test.py`:
`Inner` has fields `x : str` and `_y : str`; `Outer` has fields `a : int`,
`b : Inner` and `c : List[Inner]`.  The constructors take the unmarked
parameter names (`Inner(x=..., y=...)`) and store the values under the
declared, marker-preserving field names. -/

def innerFields : SchemaFields := .cons "x" .sStr (.cons "_y" .sStr .nil)

def innerSchema : Schema := .sRecord innerFields

def outerSchema : Schema :=
  .sRecord (.cons "a" .sInt
    (.cons "b" innerSchema (.cons "c" (.sList innerSchema) .nil)))

/-- The constructor `Inner(x=..., y=...)`: parameters are unmarked, storage
keeps the declared name `_y`. -/
def mkInner (x y : String) : Value :=
  .vRecord (.cons "x" (.vStr x) (.cons "_y" (.vStr y) .nil))

/-- The constructor `Outer(a=..., b=..., c=...)`. -/
def mkOuter (a : Int) (b : Value) (c : ValueList) : Value :=
  .vRecord (.cons "a" (.vInt a) (.cons "b" b (.cons "c" (.vList c) .nil)))

/-- The instance `Outer(1, Inner(x="1", y="2"), [Inner("3", "4")])` from the test. -/
def testOuter : Value := mkOuter 1 (mkInner "1" "2") (.cons (mkInner "3" "4") .nil)

/-- The plain data the spec scenario expects for
`Outer{a:1, b:Inner{x:"1", _y:"2"}, c:[Inner{x:"3", _y:"4"}]}`. -/
def testOuterData : PlainData :=
  .pMap (.cons "a" (.pNum 1)
    (.cons "b" (.pMap (.cons "x" (.pStr "1") (.cons "_y" (.pStr "2") .nil)))
      (.cons "c" (.pSeq (.cons
          (.pMap (.cons "x" (.pStr "3") (.cons "_y" (.pStr "4") .nil))) .nil))
        .nil)))

/-! ## Errors

Modelled from the spec's error taxonomy (§7); the `mallennlp.exceptions`
module is not under `src/`.  `preventUpdate` is the ignore signal
(`dash.exceptions.PreventUpdate`), a control-flow sentinel, not a true
error. -/

inductive CallbackError where
  | notPermitted (msg : String)
  | invalidPageParameters (msg : String)
  | schemaMismatch
  | preventUpdate
deriving DecidableEq

/-! ## Page base contract

Embedded from `class Page` in `mallennlp/dashboard/page.py`.  A page
instance is the pair of its session state `s` and its params `p`
(`__init__` stores exactly these). -/

structure PageData where
  s : Value
  p : Value

/-- Embedded from page.py, `Page.to_store`:
`return {"s": serialize(self.s), "p": serialize(self.p)}`. -/
def Page.to_store (pg : PageData) : PlainData :=
  .pMap (.cons "s" (serialize pg.s) (.cons "p" (serialize pg.p) .nil))

/-- Embedded from page.py, `Page.from_store`:
`s = deserialize(cls.SessionState, data["s"]); p = deserialize(cls.Params,
data["p"]); return cls(s, p)`.  The schemas of `SessionState` and `Params`
are passed explicitly; a missing key or a schema mismatch is `none`. -/
def Page.from_store (ss ps : Schema) (data : PlainData) : Option PageData :=
  match data with
  | .pMap m =>
    match lookupMap "s" m with
    | none => none
    | some ds =>
      match deserialize ss ds with
      | none => none
      | some s =>
        match lookupMap "p" m with
        | none => none
        | some dp =>
          match deserialize ps dp with
          | none => none
          | some p => some ⟨s, p⟩
  | _ => none

/-! ## Permission check and callback dispatch -/

/-- Embedded from page.py, `ensure_permissions`: reads the method's
`permissions` attribute; if it is set and the current user's permission
level is below it, raises `NotPermittedError` with the quoted message;
otherwise it does not raise. -/
def ensure_permissions (pageName methodName callbackId : String)
    (permissions : Option Int) (userLevel : Int) : Except CallbackError Unit :=
  match permissions with
  | some required =>
    if userLevel < required then
      .error (.notPermitted ("Callback " ++ pageName ++ "." ++ methodName ++ "[" ++
        callbackId ++ "] not permitted. You do not have adequate permissions"))
    else .ok ()
  | none => .ok ()

/-- Modelled from the spec: the Callback Dispatcher (§4.4) is not under
`src/`; only its default pre-hook `ensure_permissions` is.  Per the spec it
runs the pre-hooks (logging hooks are effect-free here, the permission
check may abort), reconstructs the page from its stored blob, invokes the
method body, and on success commits `to_store` of the resulting page when
the callback is mutating; on any abort (permission failure, ignore signal
or error) the stored blob is left untouched. -/
def dispatch {α : Type} (pageName methodName callbackId : String)
    (permissions : Option Int) (mutating : Bool) (userLevel : Int)
    (ss ps : Schema) (body : PageData → Except CallbackError (α × PageData))
    (blob : PlainData) : Except CallbackError α × PlainData :=
  match ensure_permissions pageName methodName callbackId permissions userLevel with
  | .error e => (.error e, blob)
  | .ok _ =>
    match Page.from_store ss ps blob with
    | none => (.error .schemaMismatch, blob)
    | some page =>
      match body page with
      | .error e => (.error e, blob)
      | .ok (out, page') => (.ok out, if mutating then Page.to_store page' else blob)

/-! ## Callback metadata -/

/-- The attributes `mark_callback` sets on the decorated method, embedded
from page.py.  Hook functions are opaque; the one type `H` stands for all
five hook signatures (the Python lists are untyped). -/
structure CallbackMeta (H : Type) where
  is_callback : Bool
  is_mutating : Bool
  outputs : List String
  inputs : List String
  states : List String
  registration_hooks : List H
  pre_hooks : List H
  post_hooks : List H
  err_hooks : List H
  ignore_hooks : List H
  permissions : Option Int

/-- The source default of the `mutating` parameter of `Page.callback`
(`mutating: bool = True`). -/
def defaultMutating : Bool := true

/-- Embedded from page.py, `Page.callback` / `mark_callback`.  `outputs`,
`inputs` and `states` default to `None` and are normalised to `[]`
(the single-`Output` coercion branch of the source cannot arise for a
well-typed list argument).  The returned metadata is what the decorator
attaches to the method. -/
def Page.callback {H : Type} (outputs inputs states : Option (List String))
    (mutating : Bool)
    (registration_hooks pre_hooks post_hooks err_hooks ignore_hooks : List H)
    (permissions : Option Int) : CallbackMeta H :=
  ⟨true, mutating, outputs.getD [], inputs.getD [], states.getD [],
    registration_hooks, pre_hooks, post_hooks, err_hooks, ignore_hooks, permissions⟩

/-! ## Rendering -/

/-- The rendered element tree: `dcc.Store` and `html.Div` are embedded from
the source's `render`; components produced by page code are opaque. -/
inductive Elem where
  | divChildren (children : List Elem)
  | divId (elemId : String)
  | store (elemId : String) (data : PlainData)
  | opaqueEl (tag : Nat)

/-- A concrete page, embedded from `class Page` in page.py: `get_elements`
and `get_notifications` may mutate the session state, so they are state
transformers over `PageData`; `store_name`, `callback_stores` and
`callback_error_divs` embed the class attributes `_store_name`,
`_callback_stores` and `_callback_error_divs`. -/
structure PageClass where
  get_elements : PageData → List Elem × PageData
  get_notifications : PageData → List Elem × PageData
  store_name : String
  callback_stores : List String
  callback_error_divs : List String

/-- Embedded from page.py, `Page.render`: calls `get_elements` first (the
source comment: call it before the store in case it modifies state), then
`get_notifications`, then snapshots the state with `to_store` and places
that snapshot in the main store and every callback store.  The embedding
threads a counter that each `to_store` invocation increments, so the number
of `to_store` calls is observable. -/
def Page.render (pg : PageClass) (st : PageData) (calls : Nat) :
    (Elem × List Elem × List Elem) × PageData × Nat :=
  let er := pg.get_elements st
  let nr := pg.get_notifications er.2
  let store := Page.to_store nr.2
  ((.divChildren (.store pg.store_name store ::
      (pg.callback_stores.map (fun s => .store s store) ++ er.1)),
    pg.callback_error_divs.map .divId,
    nr.1),
   nr.2, calls + 1)

/-! ## The LogStream page

Embedded from `mallennlp/dashboard/log_stream.py`.  The collaborators
`LogStreamService` (`mallennlp/services/log_stream.py`) and
`format_log_line` (`mallennlp/controllers/log_stream.py`) are not under
`src/` and are modelled from the spec as abstract parameters. -/

/-- Modelled from the spec: the log-tail collaborator exposes
`readlines() -> ordered sequence of line records` (consuming them) and
`should_read() -> boolean`; its internal state is abstract. -/
structure LogStreamModel (σ : Type) where
  should_read : σ → Bool
  readlines : σ → List String × σ

/-- Embedded from log_stream.py, `LogStream.render_log_stream_content`:
`if not self.s.stream.should_read(): raise PreventUpdate` then
`return [format_log_line(line) for line in self.s.stream.readlines()]`.
`format_log_line` is an abstract formatter. -/
def LogStream.render_log_stream_content {σ ε : Type} (stream : LogStreamModel σ)
    (format_log_line : String → ε) (st : σ) : Except CallbackError (List ε × σ) :=
  if stream.should_read st = false then .error .preventUpdate
  else
    let r := stream.readlines st
    .ok (r.1.map format_log_line, r.2)

/-- Embedded from log_stream.py, `LogStream.Params`: `path : str` (with the
`check_path_exists` validator) and `live : bool = False`. -/
structure LogStreamParams where
  path : String
  live : Bool

/-- Construction of `LogStream.Params`, embedded from log_stream.py: attrs
field validators run during `__init__`, so `check_path_exists` rejects a
non-existent path with `InvalidPageParametersError("log file {value} not
found")` before the params value exists.  The filesystem is abstracted as
the predicate `pathExists`. -/
def LogStream.mkParams (pathExists : String → Bool) (path : String) (live : Bool) :
    Except CallbackError LogStreamParams :=
  if pathExists path then .ok ⟨path, live⟩
  else .error (.invalidPageParameters ("log file " ++ path ++ " not found"))

/-- Modelled from the spec: `LogStreamService` is an external collaborator;
only its constructor arguments, exactly as `LogStream.from_params` passes
them, are modelled. -/
structure LogStreamService where
  path : String
  max_lines : Option Nat
  max_lines_per_update : Option Nat
  max_blocks_per_update : Option Nat
  max_block_size : Int

/-- Embedded from log_stream.py, `LogStream.SessionState`. -/
structure LogStreamSessionState where
  stream : LogStreamService

/-- Embedded from log_stream.py, `LogStream.from_params`: builds the
`LogStreamService` with `max_lines=None, max_lines_per_update=None,
max_blocks_per_update=None, max_block_size=-1` and returns
`cls(cls.SessionState(stream=stream), params)`. -/
def LogStream.from_params (params : LogStreamParams) :
    LogStreamSessionState × LogStreamParams :=
  (⟨⟨params.path, none, none, none, -1⟩⟩, params)

/-- The whole construction path: build the params (validators run), then —
only on success — build the page from them. -/
def LogStream.build (pathExists : String → Bool) (path : String) (live : Bool) :
    Except CallbackError (LogStreamSessionState × LogStreamParams) :=
  (LogStream.mkParams pathExists path live).map LogStream.from_params

/-! ## UserService.validate_password

Embedded from `mallennlp/services/user.py`. -/

/-- A single-quote character as a string (the rejection message quotes the
word password). -/
def squote : String := String.mk [Char.ofNat 39]

/-- The too-short rejection message. -/
def shortMsg : String := "password must be at least 8 characters"

/-- The contains-password rejection message
(`password cannot contain the word 'password'`). -/
def containsMsg : String :=
  "password cannot contain the word " ++ squote ++ "password" ++ squote

/-- Python's `needle in haystack` on strings: the character list of the
needle is an infix of that of the haystack. -/
def containsSubstring (haystack needle : String) : Bool :=
  decide (needle.data <:+: haystack.data)

/-- Embedded from user.py, `UserService.validate_password`.  It is a
`@staticmethod` reading no state; the embedding is a pure function of the
password alone. -/
def UserService.validate_password (password : String) : Bool × Option String :=
  if password.length < 8 then (false, some shortMsg)
  else if containsSubstring password "password" then (false, some containsMsg)
  else (true, none)

/-! ### Round-trip lemmas -/

/-- Serializing a field list preserves keys: looking a key up in the
serialized mapping is looking it up among the fields and serializing. -/
theorem lookupMap_serializeFields (k : String) (l : FieldList) :
    lookupMap k (serializeFields l) = (lookupField k l).map serialize := by
  match l with
  | .nil => simp [serializeFields, lookupMap, lookupField]
  | .cons k' v fs =>
    have ih := lookupMap_serializeFields k fs
    by_cases hk : k = k' <;> simp [serializeFields, lookupMap, lookupField, hk, ih]

/-- A key whose stripped name is fresh in a field list is absent from it. -/
theorem lookupField_eq_none_of_fresh (k : String) (l : FieldList)
    (h : keyFreshStripped (stripMarker k) l = true) : lookupField k l = none := by
  match l with
  | .nil => simp [lookupField]
  | .cons k' v fs =>
    simp only [keyFreshStripped, Bool.and_eq_true, bne_iff_ne, ne_eq] at h
    have hk : k ≠ k' := by
      intro he
      exact h.1 (by rw [he])
    simp [lookupField, hk, lookupField_eq_none_of_fresh k fs h.2]

/-- With distinct constructor-parameter names, re-keying the fields by their
stripped names preserves lookups (translated to the stripped key). -/
theorem lookupField_stripKeys (k : String) (v : Value) (l : FieldList)
    (hnd : strippedNodup l = true) (h : lookupField k l = some v) :
    lookupField (stripMarker k) (stripKeys l) = some v := by
  match l with
  | .nil => simp [lookupField] at h
  | .cons k' v' fs =>
    simp only [strippedNodup, Bool.and_eq_true] at hnd
    by_cases hk : k = k'
    · subst hk
      have h2 : v' = v := by simpa [lookupField] using h
      simp [stripKeys, lookupField, h2]
    · have h' : lookupField k fs = some v := by simpa [lookupField, hk] using h
      have hne : stripMarker k ≠ stripMarker k' := by
        intro he
        have hfresh : keyFreshStripped (stripMarker k) fs = true := by
          rw [he]; exact hnd.1
        have := lookupField_eq_none_of_fresh k fs hfresh
        rw [h'] at this
        exact Option.noConfusion this
      simp [stripKeys, lookupField, hne, lookupField_stripKeys k v fs hnd.2 h']

/-- Invoking the constructor on any argument list that holds, under each
field's stripped name, exactly that field's value, rebuilds the record. -/
theorem construct_eq (fs : SchemaFields) (vfs : FieldList) (args : FieldList)
    (hc : conformsFields fs vfs = true) (hnd : strippedNodup vfs = true)
    (hl : ∀ k v, lookupField k vfs = some v → lookupField (stripMarker k) args = some v) :
    construct fs args = some vfs := by
  match fs, vfs with
  | .nil, .nil => simp [construct]
  | .nil, .cons k v l => simp [conformsFields] at hc
  | .cons k s fs', .nil => simp [conformsFields] at hc
  | .cons k s fs', .cons k' v vfs' =>
    simp only [conformsFields, Bool.and_eq_true, beq_iff_eq] at hc
    obtain ⟨⟨hkk, _hcv⟩, hcf⟩ := hc
    simp only [strippedNodup, Bool.and_eq_true] at hnd
    have hv : lookupField (stripMarker k) args = some v := by
      rw [hkk]
      exact hl k' v (by simp [lookupField])
    have hrest : construct fs' args = some vfs' := by
      apply construct_eq fs' vfs' args hcf hnd.2
      intro k'' v'' hk''
      have hne : k'' ≠ k' := by
        intro he
        have hnone := lookupField_eq_none_of_fresh k' vfs' hnd.1
        rw [he] at hk''
        rw [hk''] at hnone
        exact Option.noConfusion hnone
      exact hl k'' v'' (by simp [lookupField, hne, hk''])
    rw [hkk]
    simp [construct, hkk ▸ hv, hrest]

mutual

/-- Round trip, value side: a valid instance deserializes back from its
serialization. -/
theorem deserialize_serialize (s : Schema) (v : Value) (h : conforms s v = true) :
    deserialize s (serialize v) = some v := by
  cases s with
  | sInt =>
    cases v with
    | vInt n => simp [serialize, deserialize]
    | vStr s => simp [conforms] at h
    | vBool b => simp [conforms] at h
    | vList xs => simp [conforms] at h
    | vRecord fs => simp [conforms] at h
  | sStr =>
    cases v with
    | vStr s => simp [serialize, deserialize]
    | vInt n => simp [conforms] at h
    | vBool b => simp [conforms] at h
    | vList xs => simp [conforms] at h
    | vRecord fs => simp [conforms] at h
  | sBool =>
    cases v with
    | vBool b => simp [serialize, deserialize]
    | vInt n => simp [conforms] at h
    | vStr s => simp [conforms] at h
    | vList xs => simp [conforms] at h
    | vRecord fs => simp [conforms] at h
  | sList se =>
    cases v with
    | vInt n => simp [conforms] at h
    | vStr s => simp [conforms] at h
    | vBool b => simp [conforms] at h
    | vRecord fs => simp [conforms] at h
    | vList xs =>
      have hx : conformsList se xs = true := by simpa [conforms] using h
      simp [serialize, deserialize, deserializeList_serializeList se xs hx]
  | sRecord fs =>
    cases v with
    | vInt n => simp [conforms] at h
    | vStr s => simp [conforms] at h
    | vBool b => simp [conforms] at h
    | vList xs => simp [conforms] at h
    | vRecord vfs =>
      have h' : conformsFields fs vfs = true ∧ strippedNodup vfs = true := by
        simpa [conforms, Bool.and_eq_true] using h
      have hargs : deserializeArgs (serializeFields vfs) fs = some (stripKeys vfs) :=
        deserializeArgs_serializeFields (serializeFields vfs) fs vfs h'.1 h'.2
          (fun k v hv => by rw [lookupMap_serializeFields, hv]; rfl)
      have hcon : construct fs (stripKeys vfs) = some vfs :=
        construct_eq fs vfs (stripKeys vfs) h'.1 h'.2
          (fun k v hv => lookupField_stripKeys k v vfs h'.2 hv)
      simp [serialize, deserialize, hargs, hcon]

/-- Round trip, list side. -/
theorem deserializeList_serializeList (s : Schema) (xs : ValueList)
    (h : conformsList s xs = true) :
    deserializeList s (serializeList xs) = some xs := by
  cases xs with
  | nil => simp [serializeList, deserializeList]
  | cons v vs =>
    have h' : conforms s v = true ∧ conformsList s vs = true := by
      simpa [conformsList, Bool.and_eq_true] using h
    simp [serializeList, deserializeList, deserialize_serialize s v h'.1,
      deserializeList_serializeList s vs h'.2]

/-- Round trip, record-field side: deserializing the declared fields against
any mapping that holds each field's serialized value under its stored key
yields the constructor-argument list (fields re-keyed by stripped names). -/
theorem deserializeArgs_serializeFields (entries : PlainMap) (fs : SchemaFields)
    (vfs : FieldList) (hc : conformsFields fs vfs = true) (hnd : strippedNodup vfs = true)
    (hl : ∀ k v, lookupField k vfs = some v → lookupMap k entries = some (serialize v)) :
    deserializeArgs entries fs = some (stripKeys vfs) := by
  cases fs with
  | nil =>
    cases vfs with
    | nil => simp [deserializeArgs, stripKeys]
    | cons k v l => simp [conformsFields] at hc
  | cons k s fs' =>
    cases vfs with
    | nil => simp [conformsFields] at hc
    | cons k' v vfs' =>
      simp only [conformsFields, Bool.and_eq_true, beq_iff_eq] at hc
      obtain ⟨⟨hkk, hcv⟩, hcf⟩ := hc
      subst hkk
      simp only [strippedNodup, Bool.and_eq_true] at hnd
      have hv : lookupMap k entries = some (serialize v) :=
        hl k v (by simp [lookupField])
      have hd : deserialize s (serialize v) = some v := deserialize_serialize s v hcv
      have hrest : deserializeArgs entries fs' = some (stripKeys vfs') := by
        apply deserializeArgs_serializeFields entries fs' vfs' hcf hnd.2
        intro k'' v'' hk''
        have hne : k'' ≠ k := by
          intro he
          have hnone := lookupField_eq_none_of_fresh k vfs' hnd.1
          rw [he] at hk''
          rw [hk''] at hnone
          exact Option.noConfusion hnone
        exact hl k'' v'' (by simp [lookupField, hne, hk''])
      simp [deserializeArgs, hv, hd, hrest, stripKeys]

end

/-- Claim C1 (round-trip law): for every serializable type `T` (a `Schema`) and
every valid instance `v` of `T` — nested records, ordered containers and
privacy-marked fields included — `deserialize T (serialize v)` returns
exactly `v`, under structural equality of `Value`, which compares all
fields including the privacy-marked ones. -/
theorem roundtrip_law (s : Schema) (v : Value) (h : conforms s v = true) :
    deserialize s (serialize v) = some v :=
  deserialize_serialize s v h

/-- Witness for C1 at the test instance
`Outer(1, Inner(x="1", y="2"), [Inner("3", "4")])`, which has a nested
serializable field, an ordered-container field and privacy-marked fields. -/
theorem roundtrip_law_witness :
    conforms outerSchema testOuter = true ∧
      deserialize outerSchema (serialize testOuter) = some testOuter := by
  have hc : conforms outerSchema testOuter = true := by
    simp [conforms, conformsList, conformsFields, strippedNodup, keyFreshStripped,
      stripMarker, outerSchema, innerSchema, innerFields, testOuter, mkOuter, mkInner]
  exact ⟨hc, roundtrip_law outerSchema testOuter hc⟩

/-- Claim C5 (privacy-marked fields): `Inner(x="1", y="2")` — built through the
constructor, whose parameter names are unmarked — holds `"2"` under the
marked name `_y` and serializes to a mapping keyed by the marked name
`"_y"`; the whole test instance serializes to the spec's plain data, which
deserializes back to an equal instance; and during deserialization the
argument list handed to the constructor is keyed by the unmarked name
`"y"`. -/
theorem privacy_marker_fields :
    lookupField "_y" (.cons "x" (.vStr "1") (.cons "_y" (.vStr "2") .nil))
        = some (.vStr "2") ∧
      serialize (mkInner "1" "2")
        = .pMap (.cons "x" (.pStr "1") (.cons "_y" (.pStr "2") .nil)) ∧
      serialize testOuter = testOuterData ∧
      deserialize outerSchema testOuterData = some testOuter ∧
      deserializeArgs (.cons "x" (.pStr "1") (.cons "_y" (.pStr "2") .nil)) innerFields
        = some (.cons "x" (.vStr "1") (.cons "y" (.vStr "2") .nil)) := by
  have hc : conforms outerSchema testOuter = true := by
    simp [conforms, conformsList, conformsFields, strippedNodup, keyFreshStripped,
      stripMarker, outerSchema, innerSchema, innerFields, testOuter, mkOuter, mkInner]
  have hser : serialize testOuter = testOuterData := by
    simp [serialize, serializeList, serializeFields, testOuter, testOuterData,
      mkOuter, mkInner]
  refine ⟨?_, ?_, hser, ?_, ?_⟩
  · simp [lookupField]
  · simp [serialize, serializeFields, mkInner]
  · rw [← hser]
    exact deserialize_serialize outerSchema testOuter hc
  · simp [deserializeArgs, deserialize, lookupMap, stripMarker, innerFields]

/-- Claim C3 (store round trip): for every page whose `SessionState` and
`Params` schemas the page's state and params conform to, `to_store` is
exactly the mapping `{"s": serialize(s), "p": serialize(p)}`, and
`from_store` of it deserializes the two entries independently and returns a
page with equal session state and params.  (`from_store` is defined without
any reference to `from_params`, so no `from_params` side effect re-runs.) -/
theorem to_store_from_store (ss ps : Schema) (pg : PageData)
    (hs : conforms ss pg.s = true) (hp : conforms ps pg.p = true) :
    Page.to_store pg
        = .pMap (.cons "s" (serialize pg.s) (.cons "p" (serialize pg.p) .nil)) ∧
      Page.from_store ss ps (Page.to_store pg) = some pg := by
  refine ⟨rfl, ?_⟩
  simp [Page.to_store, Page.from_store, lookupMap,
    deserialize_serialize ss pg.s hs, deserialize_serialize ps pg.p hp]

/-- Witness for C3: a page whose state and params are `Inner` instances. -/
theorem to_store_from_store_witness :
    Page.from_store innerSchema innerSchema
        (Page.to_store ⟨mkInner "1" "2", mkInner "3" "4"⟩)
      = some ⟨mkInner "1" "2", mkInner "3" "4"⟩ :=
  (to_store_from_store innerSchema innerSchema ⟨mkInner "1" "2", mkInner "3" "4"⟩
    (by simp [conforms, conformsFields, strippedNodup, keyFreshStripped, stripMarker,
      innerSchema, innerFields, mkInner])
    (by simp [conforms, conformsFields, strippedNodup, keyFreshStripped, stripMarker,
      innerSchema, innerFields, mkInner])).2

/-- Claim C2 (permission gate): when the acting principal's level is below the
callback's required level, the dispatch returns `NotPermittedError` with
the stored blob untouched, uniformly in the method body — so the body is
never invoked and stored state is not mutated; when the level is at least
the required level, `ensure_permissions` does not raise. -/
theorem permission_gate {α : Type} (pageName methodName callbackId : String)
    (required userLevel : Int) (mutating : Bool) (ss ps : Schema) (blob : PlainData) :
    (userLevel < required →
      ∀ body : PageData → Except CallbackError (α × PageData),
        dispatch pageName methodName callbackId (some required) mutating userLevel
            ss ps body blob
          = (.error (.notPermitted ("Callback " ++ pageName ++ "." ++ methodName ++
              "[" ++ callbackId ++ "] not permitted. You do not have adequate permissions")),
             blob)) ∧
    (required ≤ userLevel →
      ensure_permissions pageName methodName callbackId (some required) userLevel
        = .ok ()) := by
  constructor
  · intro h body
    simp [dispatch, ensure_permissions, h]
  · intro h
    simp [ensure_permissions, not_lt.mpr h]

/-- Witness for C2: required level 2 against principal levels 1 and 3. -/
theorem permission_gate_witness :
    dispatch "LogStream" "render_log_stream_content" "0" (some 2) true 1
        innerSchema innerSchema (fun pg => .ok ((0 : Int), pg)) .null
      = (.error (.notPermitted ("Callback " ++ "LogStream" ++ "." ++
          "render_log_stream_content" ++ "[" ++ "0" ++
          "] not permitted. You do not have adequate permissions")), .null) ∧
    ensure_permissions "LogStream" "render_log_stream_content" "0" (some 2) 3
      = .ok () :=
  ⟨(@permission_gate Int "LogStream" "render_log_stream_content" "0" 2 1 true
      innerSchema innerSchema .null).1 (by decide) (fun pg => .ok ((0 : Int), pg)),
   (@permission_gate Int "LogStream" "render_log_stream_content" "0" 2 3 true
      innerSchema innerSchema .null).2 (by decide)⟩

/-- Claim C8 (mutating by default): a callback registered through
`Page.callback` with the `mutating` parameter left at its source default is
marked mutating, and in general the `is_mutating` attribute equals exactly
the `mutating` argument — so a callback is non-mutating only when the
caller explicitly passes `mutating=False`. -/
theorem callback_mutating_default {H : Type} (o i st : Option (List String))
    (rh ph poh eh igh : List H) (perm : Option Int) :
    (Page.callback o i st defaultMutating rh ph poh eh igh perm).is_mutating = true ∧
    ∀ m : Bool, (Page.callback o i st m rh ph poh eh igh perm).is_mutating = m :=
  ⟨rfl, fun _ => rfl⟩

/-- Claim C6 (render ordering): `render` evaluates `get_elements` on the
incoming state, `get_notifications` on the state that left behind, and only
then snapshots with `to_store`, so the store data placed in the content div
is `to_store` of the state after both calls; the result is the triple of
the content div (stores first, then elements), the error-placeholder divs,
and the notifications. -/
theorem render_order (pg : PageClass) (st : PageData) (calls : Nat) :
    Page.render pg st calls =
      ((.divChildren (.store pg.store_name
            (Page.to_store (pg.get_notifications (pg.get_elements st).2).2) ::
          (pg.callback_stores.map (fun s => .store s
              (Page.to_store (pg.get_notifications (pg.get_elements st).2).2))
            ++ (pg.get_elements st).1)),
        pg.callback_error_divs.map .divId,
        (pg.get_notifications (pg.get_elements st).2).1),
       (pg.get_notifications (pg.get_elements st).2).2, calls + 1) := rfl

/-- Claim C9 (single shared snapshot): one `render` invocation performs
exactly one `to_store` call (the counter rises by one) and the same single
snapshot value is the data of the main store and of every callback store. -/
theorem render_single_snapshot (pg : PageClass) (st : PageData) (calls : Nat) :
    ∃ snap : PlainData,
      (Page.render pg st calls).2.2 = calls + 1 ∧
      (Page.render pg st calls).1.1 =
        .divChildren (.store pg.store_name snap ::
          (pg.callback_stores.map (fun s => .store s snap) ++ (pg.get_elements st).1)) :=
  ⟨Page.to_store (pg.get_notifications (pg.get_elements st).2).2, rfl, rfl⟩

/-- Claim C7 (log-stream ignore semantics): when `should_read()` is false the
callback raises the ignore signal `PreventUpdate` uniformly in `readlines`
— so `readlines` is never consulted and no output is produced; when it is
true the callback returns the formatted lines obtained from
`readlines()`. -/
theorem log_stream_content_cases {σ ε : Type} (stream : LogStreamModel σ)
    (fmt : String → ε) (st : σ) :
    (stream.should_read st = false →
      ∀ rl : σ → List String × σ,
        LogStream.render_log_stream_content ⟨stream.should_read, rl⟩ fmt st
          = .error .preventUpdate) ∧
    (stream.should_read st = true →
      LogStream.render_log_stream_content stream fmt st
        = .ok ((stream.readlines st).1.map fmt, (stream.readlines st).2)) := by
  constructor
  · intro h rl
    simp [LogStream.render_log_stream_content, h]
  · intro h
    simp [LogStream.render_log_stream_content, h]

/-- Witness for C7: a stream with nothing to read ignores; one with content
returns its formatted lines. -/
theorem log_stream_content_cases_witness :
    LogStream.render_log_stream_content
        (⟨fun _ => false, fun n => (["a"], n)⟩ : LogStreamModel Nat)
        (fun s => s) 0
      = .error .preventUpdate ∧
    LogStream.render_log_stream_content
        (⟨fun _ => true, fun n => (["a"], n + 1)⟩ : LogStreamModel Nat)
        (fun s => s) 0
      = .ok (["a"], 1) :=
  ⟨(log_stream_content_cases
      (⟨fun _ => false, fun n => (["a"], n)⟩ : LogStreamModel Nat) (fun s => s) 0).1
      rfl (fun n => (["a"], n)),
   (log_stream_content_cases
      (⟨fun _ => true, fun n => (["a"], n + 1)⟩ : LogStreamModel Nat) (fun s => s) 0).2
      rfl⟩

/-- Claim C4 (invalid path aborts construction): when the path does not
exist, building `LogStream.Params` raises `InvalidPageParametersError` from
the field validator, and the whole construction pipeline fails with that
error uniformly in whatever page builder would have followed — so no
`SessionState`, no `LogStreamService` and no page instance is ever built. -/
theorem invalid_path_aborts (pathExists : String → Bool) (path : String) (live : Bool)
    (h : pathExists path = false) :
    LogStream.mkParams pathExists path live
        = .error (.invalidPageParameters ("log file " ++ path ++ " not found")) ∧
    ∀ {X : Type} (builder : LogStreamParams → X),
      (LogStream.mkParams pathExists path live).map builder
        = .error (.invalidPageParameters ("log file " ++ path ++ " not found")) := by
  have hm : LogStream.mkParams pathExists path live
      = .error (.invalidPageParameters ("log file " ++ path ++ " not found")) := by
    simp [LogStream.mkParams, h]
  exact ⟨hm, fun builder => by simp [hm, Except.map]⟩

/-- Witness for C4: the spec scenario `Params{path: "/tmp/x.log"}` on a
filesystem where the file does not exist. -/
theorem invalid_path_aborts_witness :
    LogStream.build (fun _ => false) "/tmp/x.log" false
      = .error (.invalidPageParameters ("log file " ++ "/tmp/x.log" ++ " not found")) :=
  (invalid_path_aborts (fun _ => false) "/tmp/x.log" false rfl).2 LogStream.from_params

/-- Claim C10 (validate_password): a password shorter than 8 characters is
rejected with the too-short message; otherwise one containing the substring
"password" is rejected with the contains-password message; otherwise it is
accepted with no message.  (The embedding is a pure function: the source is
a `@staticmethod` that reads no state.) -/
theorem validate_password_cases (p : String) :
    (p.length < 8 →
      UserService.validate_password p = (false, some shortMsg)) ∧
    (¬ p.length < 8 → containsSubstring p "password" = true →
      UserService.validate_password p = (false, some containsMsg)) ∧
    (¬ p.length < 8 → containsSubstring p "password" = false →
      UserService.validate_password p = (true, none)) := by
  refine ⟨fun h => ?_, fun h hc => ?_, fun h hc => ?_⟩
  · simp [UserService.validate_password, h]
  · simp [UserService.validate_password, h, hc]
  · simp [UserService.validate_password, h, hc]

/-- Witness for C10: one password in each of the three cases. -/
theorem validate_password_cases_witness :
    UserService.validate_password "hunter1" = (false, some shortMsg) ∧
    UserService.validate_password "mypassword1" = (false, some containsMsg) ∧
    UserService.validate_password "correcthorse" = (true, none) :=
  ⟨(validate_password_cases "hunter1").1 (by decide),
   (validate_password_cases "mypassword1").2.1 (by decide) (by decide),
   (validate_password_cases "correcthorse").2.2 (by decide) (by decide)⟩

end Mallennlp
